import Mathlib

/-!
# Verification of the Multi-Backend Orchestration & Iterative Self-Correction Engine

Shallow embedding of `src/hybrid_rag_framework.py` (module-level helpers
`clean_code_artifacts` and `count_error_lines`, class `StaticCodeValidator`,
class `ErrorsRefinementAndSelfCorrection`, class `IterativeGenerator`, and the
`MultiModelRAGBuilder.query_single_model` / `query_all_models` fan-out and
ranking), together with proofs settling the specification claims.

Python strings are modelled as `List Char`; Python floats that only ever hold
small decimal fractions (quality / time / completeness scores) are modelled as
exact rationals `ℚ` — at every comparison the code performs, the float values
stay far enough from the thresholds that the exact-rational model and the
float computation decide identically.  External effects (the subprocess that
runs golangci-lint, the LLM backends) are modelled as explicit oracle
parameters describing what the framework observes from them.
-/

namespace CloudNativeAI

/-! ## Python string primitives (str.strip, split('\n'), '\n'.join, startswith,
    substring containment `in`, str.lower, str.replace) -/

/-- The characters stripped by Python's `str.strip()`. -/
def pyIsSpace (c : Char) : Bool :=
  c = ' ' || c = '\t' || c = '\n' || c = '\r' || c = '\x0b' || c = '\x0c'

/-- Python `s.strip()`: remove leading and trailing whitespace. -/
def pyStrip (s : List Char) : List Char :=
  ((s.dropWhile pyIsSpace).reverse.dropWhile pyIsSpace).reverse

/-- Python `s.split('\n')`.  `''.split('\n') == ['']`, and every `'\n'`
    separates two (possibly empty) fields. -/
def pySplitNl : List Char → List (List Char)
  | [] => [[]]
  | c :: rest =>
    let r := pySplitNl rest
    if c = '\n' then [] :: r
    else
      match r with
      | [] => [[c]]
      | h :: t => (c :: h) :: t

/-- Python `'\n'.join(lines)`. -/
def pyJoinNl : List (List Char) → List Char
  | [] => []
  | [l] => l
  | l :: l' :: ls => l ++ '\n' :: pyJoinNl (l' :: ls)

/-- Python `s.startswith(p)`. -/
def pyStartswith : List Char → List Char → Bool
  | _, [] => true
  | [], _ :: _ => false
  | c :: cs, p :: ps => c = p && pyStartswith cs ps

/-- Python substring containment `needle in s`. -/
def hasSubstr : List Char → List Char → Bool
  | [], needle => needle.isEmpty
  | c :: rest, needle => pyStartswith (c :: rest) needle || hasSubstr rest needle

/-- Python `s.lower()` (ASCII case folding, which is all the code compares). -/
def pyLower (s : List Char) : List Char := s.map Char.toLower

/-- Worker for `pyReplace`; the fuel argument is bounded by the length of the
    remaining string, so plain structural recursion suffices. -/
def pyReplaceGo (pat rep : List Char) : Nat → List Char → List Char
  | 0, s => s
  | _ + 1, [] => []
  | fuel + 1, c :: rest =>
    if pat ≠ [] ∧ pyStartswith (c :: rest) pat then
      rep ++ pyReplaceGo pat rep fuel ((c :: rest).drop pat.length)
    else
      c :: pyReplaceGo pat rep fuel rest

/-- Python `s.replace(pat, rep)`: left-to-right, non-overlapping. -/
def pyReplace (s pat rep : List Char) : List Char :=
  pyReplaceGo pat rep s.length s

/-- Decimal digits of an integer, as Python's `str(i)` renders it (used for
    the f-string interpolation of a subprocess exit code). -/
def intChars : Int → List Char
  | .ofNat n => Nat.toDigits 10 n
  | .negSucc n => '-' :: Nat.toDigits 10 (n + 1)

/-! ## `count_error_lines` (source lines 183–216)

golangci-lint sometimes groups several errors into one Issue whose `Text`
field holds newline-separated messages; the adapter counts the individual
error lines. -/

/-- One stripped sub-line "looks like an error": source line 211,
    `'.go:' in line or 'undefined' in line or 'not used' in line or
    'error' in line.lower()`. -/
def isErrLine (line : List Char) : Bool :=
  hasSubstr line (".go:".toList) || hasSubstr line ("undefined".toList) ||
    hasSubstr line ("not used".toList) || hasSubstr (pyLower line) ("error".toList)

/-- The loop body of `count_error_lines` (source lines 201–212): strip each
    sub-line, skip blanks and `#`-comments, count error-looking lines. -/
def countErrLines : List (List Char) → Nat
  | [] => 0
  | l :: ls =>
    let line := pyStrip l
    (if line = [] then 0
     else if pyStartswith line ("#".toList) then 0
     else if isErrLine line then 1 else 0) + countErrLines ls

/-- `count_error_lines(issue_text)` (source lines 183–216): `0` for empty
    text, otherwise at least `1` (`max(error_count, 1)`, line 216). -/
def count_error_lines (issue_text : List Char) : Nat :=
  if issue_text = [] then 0
  else max (countErrLines (pySplitNl (pyStrip issue_text))) 1

/-- The counting predicate of `count_error_lines`, written declaratively:
    a sub-line is counted when, after stripping, it is non-blank, is not a
    `#`-comment, and looks like an error per `isErrLine`. -/
def codeCountable (l : List Char) : Bool :=
  pyStrip l ≠ [] && !pyStartswith (pyStrip l) ("#".toList) && isErrLine (pyStrip l)

/-! Spec-side counting function for claim C4, *modelled from the spec's
words*, to be compared with `count_error_lines` above: "count sub-lines,
skipping blank lines and comment lines (lines beginning with `#`), and
counting a sub-line as a distinct issue if it references a file location
(`<path>:<line>:`) or contains any of the tokens \"undefined\", \"not used\",
or \"error\" (case-insensitive); an issue with text that yields zero countable
sub-lines still counts as 1 issue". -/

/-- After a `:` there must be one or more digits followed by `:` for a
    `<path>:<line>:` file-location reference. -/
def digitsColonTail : List Char → Bool
  | [] => false
  | c :: rest => c = ':' || (c.isDigit && digitsColonTail rest)

/-- A sub-line references a file location `<path>:<line>:` — it contains a
    `:` followed by at least one digit and another `:`. -/
def hasFileLoc : List Char → Bool
  | [] => false
  | c :: rest => (c = ':' && (match rest with
      | [] => false
      | d :: rest2 => d.isDigit && digitsColonTail rest2)) || hasFileLoc rest

/-- Spec-side counting predicate: non-blank, not a `#`-comment, and either a
    file-location reference or one of the three tokens, all case-insensitive. -/
def specCountable (l : List Char) : Bool :=
  let s := pyStrip l
  s ≠ [] && !pyStartswith s ("#".toList) &&
    (hasFileLoc s || hasSubstr (pyLower s) ("undefined".toList) ||
      hasSubstr (pyLower s) ("not used".toList) || hasSubstr (pyLower s) ("error".toList))

/-- Modelled from the spec: the issue-counting rule as the specification
    words it (claim C4).  An issue with zero countable sub-lines still
    counts as 1. -/
def count_error_lines_spec (issue_text : List Char) : Nat :=
  max ((pySplitNl issue_text).countP specCountable) 1

/-! ## `StaticCodeValidator` (source lines 218–548)

`validate_and_fix_go_code` writes the code to a temp dir, runs a bash lint
script via `subprocess.run(..., timeout=650)`, and parses the captured stdout.
The subprocess and the JSON decoding of its stdout are external effects; the
model parameterizes over what the function observes of them, mirroring the
branch structure of source lines 397–477 exactly. -/

/-- One golangci-lint issue as the code reads it from the parsed JSON:
    `issue.get('Text','')`, `issue.get('Pos',{}).get('Line','?')`
    (absent rendered `?`), `issue.get('FromLinter','unknown')`. -/
structure Issue where
  text : List Char
  posLine : Option Nat
  fromLinter : List Char
deriving DecidableEq, Repr

/-- What `validate_and_fix_go_code` observes of the lint subprocess' stdout,
    one constructor per branch of source lines 409–477:
    * `empty rc`     — stdout falsy/whitespace-only; the code then inspects
                       the return code (lines 468–477);
    * `nullLike`     — stripped stdout is `"null"` or `"{}"` (line 413);
    * `parsedEmpty`  — `json.loads` succeeded but gave `None`/`{}` or a
                       document without a truthy `Issues` field (421, 456);
    * `parsedIssues` — `json.loads` gave a document with an `Issues` list
                       (line 425; an empty list is falsy and handled like
                       `parsedEmpty` inside the function, as in the source);
    * `parseFailed`  — `json.JSONDecodeError` (line 461). -/
inductive LintStdout where
  | empty (returncode : Int)
  | nullLike
  | parsedEmpty
  | parsedIssues (issues : List Issue)
  | parseFailed
deriving DecidableEq, Repr

/-- What the whole lint step does: either `subprocess.run` completes and
    stdout is observed, or it raises (e.g. `TimeoutExpired`), landing in the
    `except Exception` handler of source lines 493–497. -/
inductive LintOutcome where
  | ran (out : LintStdout)
  | raised (msg : List Char)
deriving DecidableEq, Repr

/-- Quality score from the error count (source line 485):
    `max(0.0, 1.0 - golangci_lint_errors * 0.08)`. -/
def quality_score_of (n : Nat) : ℚ := max 0 (1 - (n : ℚ) * (8 / 100))

/-- Passed flag (source line 488): `quality_score >= 0.5`. -/
def validation_passed_of (n : Nat) : Bool := decide ((1 / 2 : ℚ) ≤ quality_score_of n)

/-- The validation-result dictionary (source lines 359–370).  `model_name`
    and `stage_details` are omitted: the former only names temp files, the
    latter duplicates the `errors` list entry for entry (lines 445–446). -/
structure ValidationResult where
  quality_score : ℚ
  has_errors : Bool
  errors : List (List Char)
  golangci_lint_errors : Nat
  total_errors : Nat
  validation_passed : Bool
  fixed_code : Option (List Char)
  was_fixed : Bool
deriving DecidableEq, Repr

/-- Python `f"Line {loc.get('Line','?')}"` fragment. -/
def lineTag : Option Nat → List Char
  | none => "?".toList
  | some n => Nat.toDigits 10 n

/-- Per-issue reported error messages (source lines 440–446): split `Text`
    by newlines, keep non-blank stripped lines, skip `#`-comments, and format
    `f"Line {loc}: {error_line} [{linter}]"`. -/
def issueMsgs (iss : Issue) : List (List Char) :=
  (((pySplitNl iss.text).map pyStrip).filter (fun l => l ≠ [])).filterMap fun l =>
    if pyStartswith l ("#".toList) then none
    else some ("Line ".toList ++ lineTag iss.posLine ++ ": ".toList ++ l ++
      " [".toList ++ iss.fromLinter ++ "]".toList)

/-- `golangci_lint_errors` as accumulated over the stdout branches
    (source lines 399–477). -/
def lintErrors : LintStdout → Nat
  | .nullLike => 0
  | .parsedEmpty => 0
  | .parseFailed => 0
  | .parsedIssues issues =>
    if issues = [] then 0
    else issues.foldl (fun a i => a + count_error_lines i.text) 0
  | .empty rc => if rc = 0 then 0 else 1

/-- The `errors` entries accumulated over the stdout branches
    (source lines 440–446 and 475). -/
def lintMsgs : LintStdout → List (List Char)
  | .parsedIssues issues =>
    if issues = [] then []
    else issues.foldl (fun a i => a ++ issueMsgs i) []
  | .empty rc =>
    if rc = 0 then [] else ["Validation failed: exit code ".toList ++ intChars rc]
  | _ => []

/-- `StaticCodeValidator.validate_and_fix_go_code` (source lines 334–507):
    * empty/whitespace code returns early with the default result plus an
      `"Empty code"` error (lines 373–377) — `quality_score` keeps its `0.0`
      default and step 8 never runs;
    * an exception in the pipeline (modelled at the subprocess call, the
      only fallible external step) is caught at lines 493–497, appending one
      synthetic error and again skipping step 8;
    * otherwise step 8 (lines 479–488) finalizes score and flags from the
      accumulated `golangci_lint_errors`.
    The function is total: it never raises to its caller. -/
def validate_and_fix_go_code (code : List Char) (outcome : LintOutcome) : ValidationResult :=
  if pyStrip code = [] then
    { quality_score := 0, has_errors := true, errors := ["Empty code".toList],
      golangci_lint_errors := 0, total_errors := 0, validation_passed := false,
      fixed_code := some code, was_fixed := false }
  else
    match outcome with
    | .raised msg =>
      { quality_score := 0, has_errors := true,
        errors := ["Validation error: ".toList ++ msg],
        golangci_lint_errors := 0, total_errors := 0, validation_passed := false,
        fixed_code := some code, was_fixed := false }
    | .ran out =>
      let n := lintErrors out
      { quality_score := quality_score_of n,
        has_errors := decide (0 < n),
        errors := lintMsgs out,
        golangci_lint_errors := n, total_errors := n,
        validation_passed := validation_passed_of n,
        fixed_code := some code, was_fixed := false }

/-- The default no-error result returned for non-Go code
    (source lines 537–548). -/
def unsupportedLangResult (code : List Char) : ValidationResult :=
  { quality_score := 1 / 2, has_errors := false, errors := [],
    golangci_lint_errors := 0, total_errors := 0, validation_passed := true,
    fixed_code := some code, was_fixed := false }

/-- The language auto-detection of `validate_code` (source lines 528–530):
    `'auto'` becomes `'go'` when the code contains both `'package '` and
    `'func '`; any other language tag passes through unchanged. -/
def detected_language (code language : List Char) : List Char :=
  if language = "auto".toList then
    if hasSubstr code ("package ".toList) && hasSubstr code ("func ".toList) then
      "go".toList
    else language
  else language

/-- `StaticCodeValidator.validate_code` (source lines 510–548): Go code goes
    through the lint pipeline, everything else gets the default no-error
    result. -/
def validate_code (code : List Char) (language : List Char) (outcome : LintOutcome) :
    ValidationResult :=
  if detected_language code language = "go".toList then validate_and_fix_go_code code outcome
  else unsupportedLangResult code

/-! ## `clean_code_artifacts` (source lines 124–181)

Strips Markdown code-fence decoration from a generated response:
find the start of the code (first line whose stripped form starts with
`"``````go"`, exclusive, else first line starting with `"package "`,
inclusive, else 0), find the end (last line at or after the start whose
stripped form starts with `"```"`, else end of text), drop residual fence
lines, join, strip; fall back to the stripped original if nothing is left. -/

/-- The start-of-code scan of source lines 156–163: first match wins, a
    `"``````go"` fence starts *after* its line, a `"package "` line starts
    *at* its line; `none` when no line matches (start index stays 0). -/
def findStartAux : List (List Char) → Nat → Option Nat
  | [], _ => none
  | l :: rest, i =>
    let s := pyStrip l
    if pyStartswith s ("``````go".toList) then some (i + 1)
    else if pyStartswith s ("package ".toList) then some i
    else findStartAux rest (i + 1)

/-- `start_idx` after the first scan (default 0). -/
def startIdx (lines : List (List Char)) : Nat := (findStartAux lines 0).getD 0

/-- Index of the *last* line (at positions `i, i+1, ...`) whose stripped form
    starts with `"```"` — the backwards scan of source lines 166–169. -/
def lastFenceIdx : List (List Char) → Nat → Option Nat
  | [], _ => none
  | l :: rest, i =>
    match lastFenceIdx rest (i + 1) with
    | some j => some j
    | none => if pyStartswith (pyStrip l) ("```".toList) then some i else none

/-- `end_idx` after the backwards scan (default `len(lines)`); only indices
    `≥ start` are examined. -/
def endIdx (lines : List (List Char)) (start : Nat) : Nat :=
  match lastFenceIdx (lines.drop start) start with
  | some j => j
  | none => lines.length

/-- The line window and residual-fence filter of `clean_code_artifacts`
    (source lines 172–175): `lines[start_idx:end_idx]` with standalone
    fence markers removed. -/
def cleanedLines (lines : List (List Char)) : List (List Char) :=
  ((lines.drop (startIdx lines)).take (endIdx lines (startIdx lines) - startIdx lines)).filter
    fun l => pyStrip l ≠ ("```".toList) ∧ pyStrip l ≠ ("``````go".toList)

/-- `clean_code_artifacts(response)` (source lines 124–181): early return on
    blank input, join the cleaned window and strip; if cleaning removed
    everything, fall back to the stripped original. -/
def clean_code_artifacts (response : List Char) : List Char :=
  if response = [] ∨ pyStrip response = [] then response
  else if pyStrip (pyJoinNl (cleanedLines (pySplitNl response))) = [] then pyStrip response
  else pyStrip (pyJoinNl (cleanedLines (pySplitNl response)))

/-! ## `IterativeGenerator.generate_with_continuation` (source lines 831–968)

Drives one chat backend, re-requesting continuation while the finish reason
is `'length'`, up to `max_iterations` calls.  The backend is an oracle from
the 1-based call number to what that call produced (the continuation prompts
the code synthesizes at lines 945–950 only influence the oracle's outputs and
carry no other state). -/

/-- One backend call: content, finish reason and token usage on success, or
    an exception (caught at source lines 955–958).  A `None` content raising
    `TypeError` at the `+=` is also an `exn`. -/
inductive CallResult where
  | ok (content : List Char) (finishReason : List Char) (tokens : Nat)
  | exn (msg : List Char)
deriving DecidableEq, Repr

/-- The generation metadata dictionary (source lines 889–894, 957). -/
structure GenMetadata where
  iterations : Nat
  finish_reasons : List (List Char)
  total_tokens : Nat
  was_truncated : Bool
  error : Option (List Char)
deriving DecidableEq, Repr

/-- The per-call metadata bookkeeping (source lines 929–932): bump the
    iteration count, record the finish reason, accumulate token usage. -/
def genMetaUpdate (meta : GenMetadata) (iteration : Nat) (fr : List Char) (tok : Nat) :
    GenMetadata :=
  { meta with
    iterations := iteration + 1,
    finish_reasons := meta.finish_reasons ++ [fr],
    total_tokens := meta.total_tokens + tok }

/-- The `while iteration < self.max_iterations` loop (source lines 901–958).
    `remaining = max_iterations - iteration` makes the recursion structural;
    `iteration` is the number of calls already made.  A `'stop'` finish
    reason breaks with the accumulated text, `'length'` marks truncation and
    continues, anything else breaks, and an exception records the error and
    breaks. -/
def genGo (backend : Nat → CallResult) (iteration : Nat) :
    Nat → List Char → GenMetadata → List Char × GenMetadata
  | 0, acc, meta => (acc, meta)
  | remaining + 1, acc, meta =>
    match backend (iteration + 1) with
    | .exn msg => (acc, { meta with error := some msg })
    | .ok chunk fr tok =>
      if fr = "stop".toList then (acc ++ chunk, genMetaUpdate meta iteration fr tok)
      else if fr = "length".toList then
        genGo backend (iteration + 1) remaining (acc ++ chunk)
          { genMetaUpdate meta iteration fr tok with was_truncated := true }
      else (acc ++ chunk, genMetaUpdate meta iteration fr tok)

/-- `generate_with_continuation` (source lines 847–968): run the loop from
    zero iterations with empty metadata, then clean the accumulated text. -/
def generate_with_continuation (backend : Nat → CallResult) (max_iterations : Nat) :
    List Char × GenMetadata :=
  let r := genGo backend 0 max_iterations []
    { iterations := 0, finish_reasons := [], total_tokens := 0,
      was_truncated := false, error := none }
  (clean_code_artifacts r.1, r.2)

/-! ## `ErrorsRefinementAndSelfCorrection.refine_response_iteratively`
(source lines 551–720)

The bounded repair loop.  Each iteration asks the originating model for a fix
and re-validates; the model call and the re-validation are summarized by an
oracle `step : iteration ↦ Option error-count`: `none` when
`_request_refinement_from_model` returned `None`/empty (the `break` at source
lines 650–652), `some n` when a refined response came back and
`validate_code` reported `n` total errors. -/

/-- One entry of `iteration_details` (source lines 667–673).  `improvement`
    is a Python int that may be negative, hence `ℤ`. -/
structure IterationData where
  iteration : Nat
  errors_before : Nat
  errors_after : Nat
  improvement : Int
deriving DecidableEq, Repr

/-- The refinement-metadata dictionary (source lines 602–607 and 622–629). -/
structure RefinementMetadata where
  refinement_needed : Bool
  initial_errors : Nat
  iterations_performed : Nat
  iteration_details : List IterationData
  final_errors : Nat
  refinement_successful : Bool
deriving DecidableEq, Repr

/-- The bookkeeping of one loop iteration (source lines 667–676): append the
    `iteration_data` entry and update `iterations_performed` /
    `final_errors`.  `errors_before` is the previous `final_errors`, and
    `improvement = errors_before - errors_after` is computed before the
    update, exactly as in the source. -/
def refineStep (meta : RefinementMetadata) (i n : Nat) : RefinementMetadata :=
  { meta with
    iteration_details := meta.iteration_details ++
      [{ iteration := i, errors_before := meta.final_errors, errors_after := n,
         improvement := (meta.final_errors : Int) - (n : Int) }],
    iterations_performed := i,
    final_errors := n }

/-- The `for iteration in range(1, max_refinement_iterations + 1)` loop with
    its three `break`s (source lines 632–702), folded over the list of
    iteration numbers: `none` from the oracle is the "failed to get refined
    response" break (line 650), `n = 0` the success break (line 694), and
    `iteration > 1 ∧ improvement ≤ 0` the stagnation break (line 700). -/
def refineList (step : Nat → Option Nat) : List Nat → RefinementMetadata → RefinementMetadata
  | [], meta => meta
  | i :: rest, meta =>
    match step i with
    | none => meta
    | some n =>
      if n = 0 then { refineStep meta i n with refinement_successful := true }
      else if 1 < i ∧ (meta.final_errors : Int) - (n : Int) ≤ 0 then refineStep meta i n
      else refineList step rest (refineStep meta i n)

/-- `refine_response_iteratively` (source lines 571–720), restricted to the
    refinement bookkeeping (the returned response text is the last refined
    artifact and carries no further invariants used by the claims).
    If the initial validation has no errors the loop is skipped entirely
    (source lines 600–607). -/
def refine_response_iteratively (initial_has_errors : Bool) (initial_errors : Nat)
    (step : Nat → Option Nat) (max_refinement_iterations : Nat) : RefinementMetadata :=
  if !initial_has_errors then
    { refinement_needed := false, initial_errors := 0, iterations_performed := 0,
      iteration_details := [], final_errors := 0, refinement_successful := false }
  else
    refineList step (List.range' 1 max_refinement_iterations)
      { refinement_needed := true, initial_errors := initial_errors,
        iterations_performed := 0, iteration_details := [],
        final_errors := initial_errors, refinement_successful := false }

/-! ## `MultiModelRAGBuilder.query_single_model` / `query_all_models`
(source lines 1393–1626)

The fan-out queries every configured backend (one future per model, results
collected in submission order), then ranks by the combined score.  Each
backend's end-to-end behavior (context retrieval + generation + validation)
is summarized by an oracle: either the worker completes with a response,
duration and validation report, or some step raises and the `except` block of
source lines 1535–1543 builds the fallback result. -/

/-- What one worker observes end to end. -/
inductive BackendBehavior where
  | succeeds (response : List Char) (duration : ℚ) (validation : ValidationResult)
  | throws (msg : List Char) (duration : ℚ)
deriving DecidableEq, Repr

/-- The metadata attached to one result: the success path carries the
    validation report (source lines 1529–1533), the failure path only
    `{'error': str(e)}` (line 1543) — no report at all. -/
inductive QueryMeta where
  | ok (static_validation : ValidationResult)
  | err (msg : List Char)
deriving DecidableEq, Repr

/-- One entry of the `query_all_models` result list (source lines 1577–1583). -/
structure QueryResult where
  model : List Char
  response : List Char
  duration : ℚ
  response_length : Nat
  metadata : QueryMeta
deriving DecidableEq, Repr

/-- `query_single_model` (source lines 1393–1543), as observed by its caller:
    on success the response is replaced by `fixed_code` when that is truthy
    (non-`None` and non-empty, line 1525), on failure the response is the
    diagnostic placeholder `f"Error: {str(e)}"`.  `response_length` is
    `len(response)` as computed at line 1581, before escape normalization. -/
def query_single_model (name : List Char) (b : BackendBehavior) : QueryResult :=
  match b with
  | .succeeds resp dur v =>
    let resp' := match v.fixed_code with
      | some c => if c = [] then resp else c
      | none => resp
    { model := name, response := resp', duration := dur,
      response_length := resp'.length, metadata := .ok v }
  | .throws msg dur =>
    { model := name, response := "Error: ".toList ++ msg, duration := dur,
      response_length := ("Error: ".toList ++ msg).length, metadata := .err msg }

/-- The escape normalization applied when collecting results (source line
    1579): `response.replace('\\n', '\n').replace('\\t', '\t')`. -/
def normalizeResp (s : List Char) : List Char :=
  pyReplace (pyReplace s ("\\n".toList) ("\n".toList)) ("\\t".toList) ("\t".toList)

/-- `time_score = max(0.0, 1.0 - duration / 30)` (source line 1593). -/
def time_score_of (duration : ℚ) : ℚ := max 0 (1 - duration / 30)

/-- `completeness = min(response_length / 3000, 1.0)` (source line 1596). -/
def completeness_of (len : Nat) : ℚ := min ((len : ℚ) / 3000) 1

/-- `metadata.get('static_validation', {}).get('quality_score', 0.0)`
    (source line 1589): 0.0 when the metadata carries no report. -/
def metaQuality : QueryMeta → ℚ
  | .ok v => v.quality_score
  | .err _ => 0

/-- `get_combined_score` (source lines 1588–1602):
    `0.70 * quality + 0.10 * time + 0.20 * completeness`. -/
def get_combined_score (r : QueryResult) : ℚ :=
  metaQuality r.metadata * (70 / 100) + time_score_of r.duration * (10 / 100) +
    completeness_of r.response_length * (20 / 100)

/-- Stable descending insertion: an element goes before the first list entry
    whose key is not larger.  `insertDesc` + `sortDesc` compute exactly the
    result of Python's stable `results.sort(key=..., reverse=True)` at source
    line 1604 (descending by key, ties in original order). -/
def insertDesc (key : QueryResult → ℚ) (r : QueryResult) : List QueryResult → List QueryResult
  | [] => [r]
  | x :: xs => if key x ≤ key r then r :: x :: xs else x :: insertDesc key r xs

/-- Stable descending sort by key (see `insertDesc`). -/
def sortDesc (key : QueryResult → ℚ) : List QueryResult → List QueryResult
  | [] => []
  | x :: xs => insertDesc key x (sortDesc key xs)

/-- Collection of one worker's result (source lines 1573–1583): every
    future yields exactly one entry, escape-normalized. -/
def collectResult (p : List Char × BackendBehavior) : QueryResult :=
  { query_single_model p.1 p.2 with
    response := normalizeResp (query_single_model p.1 p.2).response }

/-- `query_all_models` (source lines 1546–1626): one result per configured
    backend, escape-normalized, then ranked by combined score.  The
    2-decimal display rounding of `duration` (line 1580) is omitted; no
    claim depends on sub-cent duration differences. -/
def query_all_models (backends : List (List Char × BackendBehavior)) : List QueryResult :=
  sortDesc get_combined_score (backends.map collectResult)

/-! ## Helper lemmas -/

theorem quality_score_of_nonneg (n : Nat) : 0 ≤ quality_score_of n :=
  le_max_left 0 _

theorem quality_score_of_le_one (n : Nat) : quality_score_of n ≤ 1 := by
  unfold quality_score_of
  have hn : (0 : ℚ) ≤ (n : ℚ) * (8 / 100) := by positivity
  exact max_le (by norm_num) (by linarith)

theorem time_score_of_nonneg (d : ℚ) : 0 ≤ time_score_of d :=
  le_max_left 0 _

theorem time_score_of_le_one (d : ℚ) (hd : 0 ≤ d) : time_score_of d ≤ 1 := by
  unfold time_score_of
  have : (0 : ℚ) ≤ d / 30 := by positivity
  exact max_le (by norm_num) (by linarith)

theorem completeness_of_nonneg (len : Nat) : 0 ≤ completeness_of len := by
  unfold completeness_of
  have : (0 : ℚ) ≤ (len : ℚ) / 3000 := by positivity
  exact le_min this (by norm_num)

theorem completeness_of_le_one (len : Nat) : completeness_of len ≤ 1 :=
  min_le_right _ _

/-! ## Claim C1 — quality score formula and pass threshold -/

/-- **C1.** For every non-negative issue count `n`, the report produced by
    `validate_and_fix_go_code` has
    `quality_score = max(0.0, 1.0 - 0.08·n)`, which is monotonically
    non-increasing in `n` and clamped at `0.0` for `n ≥ 13`; and its
    `passed` flag holds exactly when `quality_score ≥ 0.5`, equivalently
    exactly when `n ≤ 6`.  The last conjunct ties the score functions to the
    actual report fields on every run that reaches the scoring step. -/
theorem C1_quality_score_formula_and_threshold (n : Nat) :
    quality_score_of n = max 0 (1 - (8 / 100 : ℚ) * n)
    ∧ (∀ m : Nat, n ≤ m → quality_score_of m ≤ quality_score_of n)
    ∧ (13 ≤ n → quality_score_of n = 0)
    ∧ (validation_passed_of n = true ↔ (1 / 2 : ℚ) ≤ quality_score_of n)
    ∧ (validation_passed_of n = true ↔ n ≤ 6)
    ∧ ∀ (code : List Char) (out : LintStdout), pyStrip code ≠ [] →
        (validate_and_fix_go_code code (LintOutcome.ran out)).quality_score
          = quality_score_of (validate_and_fix_go_code code (LintOutcome.ran out)).total_errors
        ∧ (validate_and_fix_go_code code (LintOutcome.ran out)).validation_passed
          = validation_passed_of
              (validate_and_fix_go_code code (LintOutcome.ran out)).total_errors := by
  refine ⟨by rw [quality_score_of, mul_comm], ?_, ?_, ?_, ?_, ?_⟩
  · intro m hm
    unfold quality_score_of
    refine max_le_max le_rfl (sub_le_sub_left ?_ 1)
    have : (n : ℚ) ≤ (m : ℚ) := by exact_mod_cast hm
    nlinarith
  · intro h13
    have : (13 : ℚ) ≤ (n : ℚ) := by exact_mod_cast h13
    unfold quality_score_of
    rw [max_eq_left (by nlinarith)]
  · simp [validation_passed_of]
  · rw [validation_passed_of, decide_eq_true_eq, quality_score_of, le_max_iff]
    constructor
    · rintro (h | h)
      · norm_num at h
      · by_contra hn
        push_neg at hn
        have h7 : (7 : ℚ) ≤ (n : ℚ) := by exact_mod_cast hn
        nlinarith
    · intro h6
      right
      have : (n : ℚ) ≤ 6 := by exact_mod_cast h6
      nlinarith
  · intro code out h
    unfold validate_and_fix_go_code
    rw [if_neg h]
    exact ⟨rfl, rfl⟩

/-- Witness for C1 at concrete inputs: clamping at `n = 13`, the threshold at
    `n = 6`, and the report/score link on a concrete run. -/
theorem C1_witness :
    quality_score_of 13 = 0
    ∧ (validation_passed_of 6 = true ↔ (6 : Nat) ≤ 6)
    ∧ (validate_and_fix_go_code ("package main".toList) (LintOutcome.ran .nullLike)).quality_score
        = quality_score_of
            (validate_and_fix_go_code ("package main".toList)
              (LintOutcome.ran .nullLike)).total_errors :=
  ⟨(C1_quality_score_formula_and_threshold 13).2.2.1 (by norm_num),
   (C1_quality_score_formula_and_threshold 6).2.2.2.2.1,
   ((C1_quality_score_formula_and_threshold 0).2.2.2.2.2 ("package main".toList) .nullLike
     (by decide)).1⟩

/-! ## Claim C2 — zero issue count vs. quality score -/

/-- **C2 counterexample.**  The claim asserts that whenever the report's
    total issue count is zero its quality score equals 1.0, *including* the
    empty-code path.  On the empty-code input `""` the code returns early
    with `total_errors = 0` but `quality_score = 0.0` (the initialized
    default; the scoring step never runs), so the claim is false. -/
theorem C2_counterexample :
    (validate_and_fix_go_code [] (LintOutcome.ran .nullLike)).total_errors = 0
    ∧ (validate_and_fix_go_code [] (LintOutcome.ran .nullLike)).quality_score = 0
    ∧ (validate_and_fix_go_code [] (LintOutcome.ran .nullLike)).quality_score ≠ 1 :=
  ⟨by decide, rfl, by decide⟩

/-- **C2 as amended.**  On every run that reaches the scoring step
    (non-empty code, lint step completed), zero total issues does imply
    `quality_score = 1.0`; the empty-code path and the internal-exception
    path, however, return reports with `total_errors = 0` and
    `quality_score = 0.0`. -/
theorem C2_zero_issues_score_consistency (code msg : List Char) (out : LintStdout)
    (o : LintOutcome) :
    (pyStrip code ≠ [] →
      (validate_and_fix_go_code code (LintOutcome.ran out)).total_errors = 0 →
      (validate_and_fix_go_code code (LintOutcome.ran out)).quality_score = 1)
    ∧ (pyStrip code ≠ [] →
      (validate_and_fix_go_code code (LintOutcome.raised msg)).total_errors = 0
      ∧ (validate_and_fix_go_code code (LintOutcome.raised msg)).quality_score = 0)
    ∧ (pyStrip code = [] →
      (validate_and_fix_go_code code o).total_errors = 0
      ∧ (validate_and_fix_go_code code o).quality_score = 0) := by
  refine ⟨?_, ?_, ?_⟩
  · intro h h0
    unfold validate_and_fix_go_code at h0 ⊢
    rw [if_neg h] at h0 ⊢
    show quality_score_of (lintErrors out) = 1
    have hn : lintErrors out = 0 := h0
    rw [hn]
    simp [quality_score_of]
  · intro h
    unfold validate_and_fix_go_code
    rw [if_neg h]
    exact ⟨rfl, rfl⟩
  · intro h
    unfold validate_and_fix_go_code
    rw [if_pos h]
    exact ⟨rfl, rfl⟩

/-- Witness for C2 on concrete runs: a clean lint run on non-empty code
    scores 1.0, and the exception path on empty code scores 0.0. -/
theorem C2_witness :
    (validate_and_fix_go_code ("package main".toList) (LintOutcome.ran .nullLike)).quality_score = 1
    ∧ (validate_and_fix_go_code [] (LintOutcome.raised [])).quality_score = 0 :=
  ⟨(C2_zero_issues_score_consistency ("package main".toList) [] .nullLike
      (LintOutcome.ran .nullLike)).1 (by decide) (by decide),
   ((C2_zero_issues_score_consistency [] [] .nullLike (LintOutcome.raised [])).2.2
      (by decide)).2⟩

/-! ## Claim C3 — degrade path on internal failure -/

/-- **C3 counterexample.**  The claim asserts that on *every* internal
    failure — including malformed/unparsable tool output — the report has
    `has_issues = true` with a synthetic issue.  But on a
    `json.JSONDecodeError` the code sets `golangci_lint_errors = 0`
    ("Assume no errors if we can't parse", source line 466) and appends no
    error, so the report has `has_errors = false`, no issues at all, and a
    perfect score. -/
theorem C3_counterexample :
    (validate_and_fix_go_code ("package main".toList)
        (LintOutcome.ran .parseFailed)).has_errors = false
    ∧ (validate_and_fix_go_code ("package main".toList)
        (LintOutcome.ran .parseFailed)).errors = []
    ∧ (validate_and_fix_go_code ("package main".toList)
        (LintOutcome.ran .parseFailed)).quality_score = 1 := by
  refine ⟨by decide, by decide, ?_⟩
  show quality_score_of 0 = 1
  simp [quality_score_of]

/-- **C3 as amended.**  The validator never raises to its caller (it is a
    total function of the code and the observed lint outcome).  On a tool
    exception (crash/timeout of the subprocess call) and on a completed run
    with no stdout and a nonzero exit code, it returns `has_errors = true`
    with exactly one synthetic issue; but on unparsable (JSON-undecodable)
    stdout it reports *success*: zero issues, `has_errors = false`,
    `quality_score = 1.0`. -/
theorem C3_degrade_paths (code msg : List Char) (rc : Int) (h : pyStrip code ≠ []) :
    ((validate_and_fix_go_code code (LintOutcome.raised msg)).has_errors = true
      ∧ (validate_and_fix_go_code code (LintOutcome.raised msg)).errors.length = 1)
    ∧ (rc ≠ 0 →
        (validate_and_fix_go_code code (LintOutcome.ran (.empty rc))).has_errors = true
        ∧ (validate_and_fix_go_code code (LintOutcome.ran (.empty rc))).errors.length = 1)
    ∧ ((validate_and_fix_go_code code (LintOutcome.ran .parseFailed)).has_errors = false
        ∧ (validate_and_fix_go_code code (LintOutcome.ran .parseFailed)).errors = []
        ∧ (validate_and_fix_go_code code (LintOutcome.ran .parseFailed)).quality_score = 1) := by
  refine ⟨?_, fun hrc => ?_, ?_⟩
  · unfold validate_and_fix_go_code
    rw [if_neg h]
    exact ⟨rfl, rfl⟩
  · unfold validate_and_fix_go_code
    rw [if_neg h]
    constructor
    · show decide (0 < lintErrors (.empty rc)) = true
      simp [lintErrors, if_neg hrc]
    · show (lintMsgs (.empty rc)).length = 1
      simp [lintMsgs, if_neg hrc]
  · unfold validate_and_fix_go_code
    rw [if_neg h]
    refine ⟨rfl, rfl, ?_⟩
    show quality_score_of 0 = 1
    simp [quality_score_of]

/-- Witness for C3 on concrete failures: an exception and an exit-code-1 run
    both surface one synthetic issue with `has_errors = true`. -/
theorem C3_witness :
    (validate_and_fix_go_code ("package main".toList)
        (LintOutcome.raised ("boom".toList))).has_errors = true
    ∧ (validate_and_fix_go_code ("package main".toList)
        (LintOutcome.ran (.empty 1))).errors.length = 1 :=
  ⟨(C3_degrade_paths ("package main".toList) ("boom".toList) 1 (by decide)).1.1,
   ((C3_degrade_paths ("package main".toList) ("boom".toList) 1 (by decide)).2.1
      (by decide)).2⟩

/-! ## Claim C4 — sub-line counting in `count_error_lines` -/

/-- The loop of `count_error_lines` counts exactly the sub-lines satisfying
    `codeCountable`. -/
theorem countErrLines_eq_countP (ls : List (List Char)) :
    countErrLines ls = ls.countP codeCountable := by
  induction ls with
  | nil => rfl
  | cons l ls ih =>
    rw [countErrLines, List.countP_cons, ih, Nat.add_comm]
    congr 1
    unfold codeCountable
    split_ifs <;> simp_all

/-- **C4 counterexample.**  The claim says tokens are matched
    case-insensitively (and that zero countable sub-lines still count as 1).
    On `"UNDEFINED x\nUNDEFINED y"` the spec-side count
    (`count_error_lines_spec`, modelled from the claim's words) is 2, but
    the code matches `'undefined'` and `'not used'` case-*sensitively*
    (only `'error'` is lowered, source line 211), finds no countable
    sub-line, and returns 1. -/
theorem C4_counterexample :
    count_error_lines_spec ("UNDEFINED x\nUNDEFINED y".toList) = 2
    ∧ count_error_lines ("UNDEFINED x\nUNDEFINED y".toList) = 1 :=
  ⟨by decide, by decide⟩

/-- **C4 as amended.**  `count_error_lines` returns 0 on empty text; on
    non-empty text it strips the text, splits on newlines, and counts the
    sub-lines that (after stripping) are non-blank, do not begin with `#`,
    and either contain `'.go:'` or contain `'undefined'` or `'not used'`
    case-sensitively or `'error'` case-insensitively (`codeCountable`);
    non-empty text with zero countable sub-lines still counts as 1. -/
theorem C4_count_error_lines_characterization (text : List Char) :
    count_error_lines [] = 0
    ∧ (text ≠ [] →
        count_error_lines text = max ((pySplitNl (pyStrip text)).countP codeCountable) 1
        ∧ 1 ≤ count_error_lines text) := by
  refine ⟨rfl, fun h => ?_⟩
  unfold count_error_lines
  rw [if_neg h, countErrLines_eq_countP]
  exact ⟨rfl, le_max_right _ 1⟩

/-- Witness for C4 on a concrete blob: one countable error line, one
    `#`-comment line skipped. -/
theorem C4_witness :
    count_error_lines ("x undefined\n# note".toList)
      = max ((pySplitNl (pyStrip ("x undefined\n# note".toList))).countP codeCountable) 1
    ∧ 1 ≤ count_error_lines ("x undefined\n# note".toList) :=
  (C4_count_error_lines_characterization ("x undefined\n# note".toList)).2 (by decide)

/-! ## Claim C10 — non-Go code bypasses the validator -/

/-- **C10.**  For every non-empty code string not detected as Go (it does
    not contain both `'package '` and `'func '`), `validate_code` with
    `language='auto'` returns the fixed default report — `quality_score
    = 0.5`, `has_errors = false`, `total_errors = 0`, `validation_passed =
    true`, `fixed_code = code` — for *every* possible lint outcome, i.e. the
    external validator is never consulted. -/
theorem C10_auto_detection_bypasses_validator (code : List Char) (outcome : LintOutcome)
    (_hne : code ≠ [])
    (hdet : ¬(hasSubstr code ("package ".toList) = true
              ∧ hasSubstr code ("func ".toList) = true)) :
    validate_code code ("auto".toList) outcome = unsupportedLangResult code := by
  have hb : (hasSubstr code ("package ".toList) && hasSubstr code ("func ".toList)) = false := by
    cases hpf : (hasSubstr code ("package ".toList) && hasSubstr code ("func ".toList)) with
    | false => rfl
    | true => exact absurd (Bool.and_eq_true_iff.mp hpf) hdet
  have hlang : detected_language code ("auto".toList) = "auto".toList := by
    unfold detected_language
    rw [if_pos rfl, if_neg (by rw [hb]; exact Bool.false_ne_true)]
  unfold validate_code
  rw [hlang, if_neg (by decide)]

/-- Witness for C10: a concrete non-Go snippet gets the default report no
    matter what the lint oracle would have said. -/
theorem C10_witness :
    validate_code ("hello world".toList) ("auto".toList) (LintOutcome.ran .nullLike)
      = unsupportedLangResult ("hello world".toList) :=
  C10_auto_detection_bypasses_validator ("hello world".toList) (LintOutcome.ran .nullLike)
    (by decide) (by decide)

/-! ## Claim C5 — combined ranking score -/

/-- **C5.**  For every candidate, the combined ranking score equals
    `0.70·q + 0.10·max(0, 1 − d/30) + 0.20·min(L/3000, 1)` where `q` is the
    report's quality score, `d` the duration, and `L` the response length;
    and for all valid inputs (`d ≥ 0`, `L ≥ 0` by type, `q` derived from a
    non-negative issue count) the value lies in `[0, 1]`. -/
theorem C5_combined_score_formula_and_bounds (r : QueryResult) (v : ValidationResult)
    (n : Nat) (hmeta : r.metadata = QueryMeta.ok v) :
    get_combined_score r
      = (70 / 100 : ℚ) * v.quality_score
        + (10 / 100 : ℚ) * max 0 (1 - r.duration / 30)
        + (20 / 100 : ℚ) * min ((r.response_length : ℚ) / 3000) 1
    ∧ (0 ≤ r.duration → v.quality_score = quality_score_of n →
        0 ≤ get_combined_score r ∧ get_combined_score r ≤ 1) := by
  constructor
  · unfold get_combined_score time_score_of completeness_of
    rw [hmeta]
    show v.quality_score * (70 / 100) + _ + _ = _
    ring
  · intro hd hq
    have hq0 : 0 ≤ metaQuality r.metadata := by
      rw [hmeta]
      show 0 ≤ v.quality_score
      rw [hq]; exact quality_score_of_nonneg n
    have hq1 : metaQuality r.metadata ≤ 1 := by
      rw [hmeta]
      show v.quality_score ≤ 1
      rw [hq]; exact quality_score_of_le_one n
    have ht0 : 0 ≤ time_score_of r.duration := time_score_of_nonneg _
    have ht1 : time_score_of r.duration ≤ 1 := time_score_of_le_one _ hd
    have hc0 : 0 ≤ completeness_of r.response_length := completeness_of_nonneg _
    have hc1 : completeness_of r.response_length ≤ 1 := completeness_of_le_one _
    unfold get_combined_score
    constructor
    · have h1 : 0 ≤ metaQuality r.metadata * (70 / 100 : ℚ) := by positivity
      have h2 : 0 ≤ time_score_of r.duration * (10 / 100 : ℚ) := by positivity
      have h3 : 0 ≤ completeness_of r.response_length * (20 / 100 : ℚ) := by positivity
      linarith
    · nlinarith

/-- Witness for C5 on a concrete candidate: quality from 5 issues, 12 s
    duration, 1500-character response. -/
theorem C5_witness :
    0 ≤ get_combined_score
        { model := [], response := [], duration := 12, response_length := 1500,
          metadata := QueryMeta.ok
            { quality_score := quality_score_of 5, has_errors := true, errors := [],
              golangci_lint_errors := 5, total_errors := 5, validation_passed := true,
              fixed_code := none, was_fixed := false } }
    ∧ get_combined_score
        { model := [], response := [], duration := 12, response_length := 1500,
          metadata := QueryMeta.ok
            { quality_score := quality_score_of 5, has_errors := true, errors := [],
              golangci_lint_errors := 5, total_errors := 5, validation_passed := true,
              fixed_code := none, was_fixed := false } } ≤ 1 :=
  (C5_combined_score_formula_and_bounds
    { model := [], response := [], duration := 12, response_length := 1500,
      metadata := QueryMeta.ok
        { quality_score := quality_score_of 5, has_errors := true, errors := [],
          golangci_lint_errors := 5, total_errors := 5, validation_passed := true,
          fixed_code := none, was_fixed := false } }
    { quality_score := quality_score_of 5, has_errors := true, errors := [],
      golangci_lint_errors := 5, total_errors := 5, validation_passed := true,
      fixed_code := none, was_fixed := false }
    5 rfl).2 (by norm_num) rfl

/-! ## Claim C6 — refinement loop invariants -/

/-- Unfolding equation of `refineList` when the generator oracle fails. -/
theorem refineList_cons_none {step : Nat → Option Nat} {i : Nat} (rest : List Nat)
    (meta : RefinementMetadata) (h : step i = none) :
    refineList step (i :: rest) meta = meta := by
  rw [refineList, h]

/-- Unfolding equation of `refineList` when the generator oracle answers. -/
theorem refineList_cons_some {step : Nat → Option Nat} {i n : Nat} (rest : List Nat)
    (meta : RefinementMetadata) (h : step i = some n) :
    refineList step (i :: rest) meta =
      if n = 0 then { refineStep meta i n with refinement_successful := true }
      else if 1 < i ∧ (meta.final_errors : Int) - (n : Int) ≤ 0 then refineStep meta i n
      else refineList step rest (refineStep meta i n) := by
  rw [refineList, h]

/-- The loop never records an iteration number beyond the largest one in its
    iteration list. -/
theorem refineList_iterations_le (step : Nat → Option Nat) (M : Nat) (l : List Nat) :
    ∀ meta : RefinementMetadata,
      (∀ i ∈ l, i ≤ M) → meta.iterations_performed ≤ M →
      (refineList step l meta).iterations_performed ≤ M := by
  induction l with
  | nil => intro meta _ hm; exact hm
  | cons i rest ih =>
    intro meta hl hm
    have hi : i ≤ M := hl i (List.mem_cons_self i rest)
    have hrest : ∀ j ∈ rest, j ≤ M := fun j hj => hl j (List.mem_cons_of_mem i hj)
    cases hstep : step i with
    | none => rw [refineList_cons_none rest meta hstep]; exact hm
    | some n =>
      rw [refineList_cons_some rest meta hstep]
      by_cases h0 : n = 0
      · rw [if_pos h0]; exact hi
      · rw [if_neg h0]
        by_cases h1 : 1 < i ∧ (meta.final_errors : Int) - (n : Int) ≤ 0
        · rw [if_pos h1]; exact hi
        · rw [if_neg h1]; exact ih (refineStep meta i n) hrest hi

/-- The success flag is only ever set together with a zero error count. -/
theorem refineList_successful_final_zero (step : Nat → Option Nat) (l : List Nat) :
    ∀ meta : RefinementMetadata, meta.refinement_successful = false →
      (refineList step l meta).refinement_successful = true →
      (refineList step l meta).final_errors = 0 := by
  induction l with
  | nil =>
    intro meta hf ht
    rw [refineList] at ht
    exact absurd ht (by simp [hf])
  | cons i rest ih =>
    intro meta hf ht
    cases hstep : step i with
    | none =>
      rw [refineList_cons_none rest meta hstep] at ht
      exact absurd ht (by simp [hf])
    | some n =>
      rw [refineList_cons_some rest meta hstep] at ht ⊢
      by_cases h0 : n = 0
      · rw [if_pos h0]
        show (refineStep meta i n).final_errors = 0
        simp [refineStep, h0]
      · rw [if_neg h0] at ht ⊢
        by_cases h1 : 1 < i ∧ (meta.final_errors : Int) - (n : Int) ≤ 0
        · rw [if_pos h1] at ht
          exact absurd ht (by simp [refineStep, hf])
        · rw [if_neg h1] at ht ⊢
          exact ih (refineStep meta i n) (by simp [refineStep, hf]) ht

/-- If the loop over consecutive iterations `i, i+1, …` stopped early —
    not by success, not by exhausting the iteration list, and not because
    the generator oracle failed on the next iteration — then it stopped at
    the stagnation break: the run performed more than one iteration and the
    last recorded entry has `improvement ≤ 0`. -/
theorem refineList_stagnation (step : Nat → Option Nat) :
    ∀ (cnt i : Nat) (meta : RefinementMetadata),
      meta.refinement_successful = false →
      meta.iterations_performed + 1 = i →
      (refineList step (List.range' i cnt) meta).refinement_successful = false →
      (refineList step (List.range' i cnt) meta).final_errors ≠ 0 →
      (refineList step (List.range' i cnt) meta).iterations_performed + 1 < i + cnt →
      step ((refineList step (List.range' i cnt) meta).iterations_performed + 1) ≠ none →
      2 ≤ (refineList step (List.range' i cnt) meta).iterations_performed
      ∧ ∃ d, (refineList step (List.range' i cnt) meta).iteration_details.getLast? = some d
          ∧ d.improvement ≤ 0
          ∧ d.iteration = (refineList step (List.range' i cnt) meta).iterations_performed
          ∧ d.errors_after = (refineList step (List.range' i cnt) meta).final_errors := by
  intro cnt
  induction cnt with
  | zero =>
    intro i meta _ hit hsf hne hlt hstep
    have hnil : List.range' i 0 = [] := rfl
    rw [hnil, refineList] at hlt
    omega
  | succ c ih =>
    intro i meta hf hit hsf hne hlt hstep
    rw [List.range'_succ] at hsf hne hlt hstep ⊢
    cases hs : step i with
    | none =>
      rw [refineList_cons_none _ meta hs] at hsf hne hlt hstep ⊢
      rw [hit] at hstep
      exact absurd hs hstep
    | some n =>
      rw [refineList_cons_some _ meta hs] at hsf hne hlt hstep ⊢
      by_cases h0 : n = 0
      · rw [if_pos h0] at hsf
        simp at hsf
      · rw [if_neg h0] at hsf hne hlt hstep ⊢
        by_cases h1 : 1 < i ∧ (meta.final_errors : Int) - (n : Int) ≤ 0
        · rw [if_pos h1] at hsf hne hlt hstep ⊢
          refine ⟨by show 2 ≤ i; omega, ?_⟩
          exact ⟨{ iteration := i, errors_before := meta.final_errors, errors_after := n,
                   improvement := (meta.final_errors : Int) - (n : Int) },
                 List.getLast?_concat _, h1.2, rfl, rfl⟩
        · rw [if_neg h1] at hsf hne hlt hstep ⊢
          exact ih (i + 1) (refineStep meta i n) (by simp [refineStep, hf])
            (by simp [refineStep]) hsf hne (by omega) hstep

/-- **C6.**  For every refinement run: the engine performs at most its
    configured iteration budget of iterations; it terminates with
    `refinement_successful` («Converged») only when the latest validation's
    issue count is exactly 0; and when it stops unsuccessfully before the
    budget although the generator would have answered the next iteration
    («NoImprovement»), it did so on an iteration strictly after the first
    with recorded `improvement ≤ 0`. -/
theorem C6_refinement_budget_and_termination (step : Nat → Option Nat)
    (budget e0 : Nat) (hasErr : Bool) :
    (refine_response_iteratively hasErr e0 step budget).iterations_performed ≤ budget
    ∧ ((refine_response_iteratively hasErr e0 step budget).refinement_successful = true →
        (refine_response_iteratively hasErr e0 step budget).final_errors = 0)
    ∧ ((refine_response_iteratively hasErr e0 step budget).refinement_successful = false →
        (refine_response_iteratively hasErr e0 step budget).final_errors ≠ 0 →
        (refine_response_iteratively hasErr e0 step budget).iterations_performed < budget →
        step ((refine_response_iteratively hasErr e0 step budget).iterations_performed + 1)
          ≠ none →
        2 ≤ (refine_response_iteratively hasErr e0 step budget).iterations_performed
        ∧ ∃ d, (refine_response_iteratively hasErr e0 step budget).iteration_details.getLast?
              = some d
            ∧ d.improvement ≤ 0
            ∧ d.iteration
              = (refine_response_iteratively hasErr e0 step budget).iterations_performed) := by
  cases hasErr with
  | false =>
    refine ⟨by simp [refine_response_iteratively], ?_, ?_⟩
    · intro hs
      exact absurd hs (by simp [refine_response_iteratively])
    · intro _ hne
      exact absurd (by simp [refine_response_iteratively]) hne
  | true =>
    unfold refine_response_iteratively
    simp only [Bool.not_true, Bool.false_eq_true, if_false]
    refine ⟨?_, ?_, ?_⟩
    · refine refineList_iterations_le step budget _ _ (fun i hi => ?_) (by simp)
      have := List.mem_range'_1.mp hi
      omega
    · exact refineList_successful_final_zero step _ _ rfl
    · intro hsf hne hlt hstep
      have h := refineList_stagnation step budget 1 _ rfl rfl hsf hne (by omega) hstep
      exact ⟨h.1, h.2.imp fun d hd => ⟨hd.1, hd.2.1, hd.2.2.1⟩⟩

/-- Oracle for the C6 witness: the repair model always comes back with a
    response that still has 2 issues. -/
def C6_witness_step : Nat → Option Nat := fun _ => some 2

/-- Witness for C6: starting from 5 issues with budget 3, the run stops at
    iteration 2 (improvement 0) — a concrete stagnation stop strictly after
    the first iteration, within budget. -/
theorem C6_witness :
    2 ≤ (refine_response_iteratively true 5 C6_witness_step 3).iterations_performed
    ∧ ∃ d, (refine_response_iteratively true 5 C6_witness_step 3).iteration_details.getLast?
          = some d
        ∧ d.improvement ≤ 0
        ∧ d.iteration = (refine_response_iteratively true 5 C6_witness_step 3).iterations_performed :=
  (C6_refinement_budget_and_termination C6_witness_step 3 5 true).2.2
    (by decide) (by decide) (by decide) (by decide)

/-! ## Claim C7 — fan-out under a failing backend -/

/-- Stable descending insertion adds exactly one element. -/
theorem insertDesc_length (key : QueryResult → ℚ) (r : QueryResult) (l : List QueryResult) :
    (insertDesc key r l).length = l.length + 1 := by
  induction l with
  | nil => rfl
  | cons x xs ih =>
    rw [insertDesc]
    split_ifs
    · rfl
    · simp [ih]

/-- Ranking preserves the number of candidates. -/
theorem sortDesc_length (key : QueryResult → ℚ) (l : List QueryResult) :
    (sortDesc key l).length = l.length := by
  induction l with
  | nil => rfl
  | cons x xs ih =>
    rw [sortDesc, insertDesc_length, ih]
    rfl

/-- Membership in a stable descending insertion. -/
theorem mem_insertDesc (key : QueryResult → ℚ) (r x : QueryResult) (l : List QueryResult) :
    x ∈ insertDesc key r l ↔ x = r ∨ x ∈ l := by
  induction l with
  | nil => simp [insertDesc]
  | cons y ys ih =>
    rw [insertDesc]
    split_ifs
    · simp
    · simp only [List.mem_cons, ih]
      tauto

/-- Ranking preserves membership: no candidate is dropped. -/
theorem mem_sortDesc (key : QueryResult → ℚ) (x : QueryResult) (l : List QueryResult) :
    x ∈ sortDesc key l ↔ x ∈ l := by
  induction l with
  | nil => exact Iff.rfl
  | cons y ys ih =>
    rw [sortDesc, mem_insertDesc, ih, List.mem_cons]

/-- **C7 as amended.**  The fan-out returns exactly one `CandidateResult`
    per configured backend, and a backend that throws is never dropped
    silently: its result is present, its artifact is the diagnostic
    placeholder `"Error: …"`, and its metadata is the bare `{'error': …}`
    dictionary — it carries *no* validation report (so no
    `has_issues = true` report), and its rank is whatever score
    `quality = 0.0` earns it, not necessarily last. -/
theorem C7_failing_backend_visible (backends : List (List Char × BackendBehavior))
    (name msg : List Char) (dur : ℚ) :
    (query_all_models backends).length = backends.length
    ∧ ((name, BackendBehavior.throws msg dur) ∈ backends →
        ∃ r ∈ query_all_models backends,
          r.model = name ∧ r.metadata = QueryMeta.err msg
          ∧ r.response = normalizeResp ("Error: ".toList ++ msg)) := by
  constructor
  · rw [query_all_models, sortDesc_length, List.length_map]
  · intro hmem
    refine ⟨collectResult (name, BackendBehavior.throws msg dur), ?_, rfl, rfl, rfl⟩
    rw [query_all_models, mem_sortDesc]
    exact List.mem_map_of_mem collectResult hmem

/-- The report the two healthy backends of the C7 scenario produce:
    12 lint issues, so a small but nonzero quality score of 0.04. -/
def C7_cex_validation : ValidationResult :=
  { quality_score := quality_score_of 12, has_errors := true, errors := [],
    golangci_lint_errors := 12, total_errors := 12, validation_passed := false,
    fixed_code := none, was_fixed := false }

/-- C7 scenario: backend `A` throws instantly on every call; backends `B`
    and `C` answer slowly (30 s) with short (2-character) responses that
    carry nonzero quality. -/
def C7_cex_backends : List (List Char × BackendBehavior) :=
  [("A".toList, BackendBehavior.throws ("x".toList) 0),
   ("B".toList, BackendBehavior.succeeds ("ok".toList) 30 C7_cex_validation),
   ("C".toList, BackendBehavior.succeeds ("ok".toList) 30 C7_cex_validation)]

/-- The collected result of the throwing backend `A`. -/
def C7_rA : QueryResult :=
  { model := "A".toList, response := "Error: x".toList, duration := 0,
    response_length := 8, metadata := QueryMeta.err ("x".toList) }

/-- The collected result of backend `B`. -/
def C7_rB : QueryResult :=
  { model := "B".toList, response := "ok".toList, duration := 30,
    response_length := 2, metadata := QueryMeta.ok C7_cex_validation }

/-- The collected result of backend `C`. -/
def C7_rC : QueryResult :=
  { model := "C".toList, response := "ok".toList, duration := 30,
    response_length := 2, metadata := QueryMeta.ok C7_cex_validation }

/-- **C7 counterexample.**  The claim says the failing backend's result
    "carries a report marking has_issues = true and ranks last (assuming
    nonzero quality from the others)".  In this concrete three-backend run
    the fan-out does return 3 results, but the failing backend `A` carries
    no validation report at all (bare error metadata), and — because a fast
    failure earns the full 0.10 time weight while the healthy backends'
    quality contributes only 0.70 · 0.04 — `A` ranks *first*, not last,
    even though `B` and `C` have nonzero quality. -/
theorem C7_counterexample :
    query_all_models C7_cex_backends = [C7_rA, C7_rB, C7_rC]
    ∧ (query_all_models C7_cex_backends).length = 3
    ∧ C7_rA.metadata = QueryMeta.err ("x".toList) := by
  have hmap : C7_cex_backends.map collectResult = [C7_rA, C7_rB, C7_rC] := by rfl
  have hBC : get_combined_score C7_rC ≤ get_combined_score C7_rB := by
    unfold get_combined_score C7_rB C7_rC
    exact le_refl _
  have hBA : get_combined_score C7_rB ≤ get_combined_score C7_rA := by
    unfold get_combined_score C7_rA C7_rB metaQuality C7_cex_validation quality_score_of
      time_score_of completeness_of
    norm_num [max_def, min_def]
  have hsort : sortDesc get_combined_score [C7_rA, C7_rB, C7_rC] = [C7_rA, C7_rB, C7_rC] := by
    show insertDesc _ C7_rA (insertDesc _ C7_rB (insertDesc _ C7_rC [])) = _
    rw [show insertDesc get_combined_score C7_rC [] = [C7_rC] from rfl]
    rw [insertDesc, if_pos hBC, insertDesc, if_pos hBA]
  refine ⟨?_, ?_, rfl⟩
  · rw [query_all_models, hmap, hsort]
  · rw [query_all_models, hmap, hsort]
    rfl

/-- Witness for C7 on the concrete scenario above, discharging the
    membership hypothesis: the throwing backend `A` is present in the
    ranked output with bare error metadata and the diagnostic placeholder. -/
theorem C7_witness :
    (query_all_models C7_cex_backends).length = 3
    ∧ ∃ r ∈ query_all_models C7_cex_backends,
        r.model = "A".toList ∧ r.metadata = QueryMeta.err ("x".toList)
        ∧ r.response = normalizeResp ("Error: ".toList ++ "x".toList) :=
  ⟨(C7_failing_backend_visible C7_cex_backends ("A".toList) ("x".toList) 0).1,
   (C7_failing_backend_visible C7_cex_backends ("A".toList) ("x".toList) 0).2 (by decide)⟩

/-! ## Claim C8 — truncation continuation performs exactly the budget -/

/-- Unfolding equation of the generation loop when the call answers. -/
theorem genGo_succ_ok {backend : Nat → CallResult} {iteration : Nat} (rem : Nat)
    (acc : List Char) (meta : GenMetadata) {chunk fr : List Char} {tok : Nat}
    (h : backend (iteration + 1) = .ok chunk fr tok) :
    genGo backend iteration (rem + 1) acc meta =
      if fr = "stop".toList then (acc ++ chunk, genMetaUpdate meta iteration fr tok)
      else if fr = "length".toList then
        genGo backend (iteration + 1) rem (acc ++ chunk)
          { genMetaUpdate meta iteration fr tok with was_truncated := true }
      else (acc ++ chunk, genMetaUpdate meta iteration fr tok) := by
  rw [genGo, h]

/-- Running the loop against a backend that truncates on every call before
    `b` and completes on call `b`: the loop reaches call `b` exactly,
    recording one finish reason per call, truncation iff some call before
    the last one happened, and no error. -/
theorem genGo_run_through (backend : Nat → CallResult) (b : Nat)
    (content : Nat → List Char) (tok : Nat → Nat)
    (hlen : ∀ i, 1 ≤ i → i < b → backend i = .ok (content i) ("length".toList) (tok i))
    (hstop : backend b = .ok (content b) ("stop".toList) (tok b)) :
    ∀ (remaining iteration : Nat) (acc : List Char) (meta : GenMetadata),
      iteration + remaining = b → iteration < b →
      meta.iterations = iteration →
      meta.finish_reasons.length = iteration →
      meta.was_truncated = decide (1 ≤ iteration) →
      meta.error = none →
      (genGo backend iteration remaining acc meta).2.iterations = b
      ∧ (genGo backend iteration remaining acc meta).2.finish_reasons.length = b
      ∧ (genGo backend iteration remaining acc meta).2.was_truncated = decide (2 ≤ b)
      ∧ (genGo backend iteration remaining acc meta).2.error = none := by
  intro remaining
  induction remaining with
  | zero => intro iteration acc meta hsum hlt _ _ _ _; omega
  | succ rem ih =>
    intro iteration acc meta hsum hlt hit hfr htr herr
    by_cases hib : iteration + 1 = b
    · have hcall : backend (iteration + 1) = .ok (content b) ("stop".toList) (tok b) := by
        rw [hib, hstop]
      rw [genGo_succ_ok rem acc meta hcall, if_pos rfl]
      refine ⟨?_, ?_, ?_, ?_⟩
      · show iteration + 1 = b
        exact hib
      · show (meta.finish_reasons ++ [_]).length = b
        rw [List.length_append, hfr, List.length_singleton]
        exact hib
      · show meta.was_truncated = decide (2 ≤ b)
        rw [htr]
        exact decide_eq_decide.mpr (by omega)
      · show meta.error = none
        exact herr
    · have hcall : backend (iteration + 1)
          = .ok (content (iteration + 1)) ("length".toList) (tok (iteration + 1)) :=
        hlen (iteration + 1) (by omega) (by omega)
      rw [genGo_succ_ok rem acc meta hcall, if_neg (by decide), if_pos rfl]
      refine ih (iteration + 1) (acc ++ content (iteration + 1)) _ (by omega) (by omega) rfl ?_ ?_ herr
      · show (meta.finish_reasons ++ [_]).length = iteration + 1
        rw [List.length_append, hfr, List.length_singleton]
      · show true = decide (1 ≤ iteration + 1)
        exact (decide_eq_true (by omega)).symm

/-- **C8 as amended.**  For every continuation budget `b ≥ 1`, against a
    backend that returns finish reason `'length'` on calls `1..b-1` and
    `'stop'` on call `b`, the generator with `max_iterations = b` performs
    exactly `b` backend calls (one finish reason per call), records no
    error, and `was_truncated` is `true` exactly when `b ≥ 2` — for `b = 1`
    the single call already completes, no truncation ever happened, and
    `was_truncated` stays `false`. -/
theorem C8_exact_budget_calls_and_truncation (b : Nat) (backend : Nat → CallResult)
    (content : Nat → List Char) (tok : Nat → Nat) (hb : 1 ≤ b)
    (hlen : ∀ i, 1 ≤ i → i < b → backend i = .ok (content i) ("length".toList) (tok i))
    (hstop : backend b = .ok (content b) ("stop".toList) (tok b)) :
    (generate_with_continuation backend b).2.iterations = b
    ∧ (generate_with_continuation backend b).2.finish_reasons.length = b
    ∧ (generate_with_continuation backend b).2.was_truncated = decide (2 ≤ b)
    ∧ (generate_with_continuation backend b).2.error = none :=
  genGo_run_through backend b content tok hlen hstop b 0 [] _
    (by omega) (by omega) rfl rfl rfl rfl

/-- C8 counterexample backend: completes on the very first call. -/
def C8_cex_backend : Nat → CallResult :=
  fun _ => CallResult.ok ("done".toList) ("stop".toList) 7

/-- **C8 counterexample.**  The claim quantifies over every budget
    `b ≥ 1` and asserts `was_truncated = true`.  At `b = 1` the scenario's
    backend returns `'stop'` on call 1 (the range `1..b-1` is empty), the
    generator performs exactly 1 call, and `was_truncated` is `false`, not
    `true`. -/
theorem C8_counterexample :
    (generate_with_continuation C8_cex_backend 1).2.iterations = 1
    ∧ (generate_with_continuation C8_cex_backend 1).2.was_truncated = false :=
  ⟨by decide, by decide⟩

/-- C8 witness backend: truncates on calls 1 and 2, completes on call 3. -/
def C8_witness_backend : Nat → CallResult :=
  fun i => CallResult.ok ("part".toList)
    (if i < 3 then "length".toList else "stop".toList) 5

/-- Witness for C8 at budget 3: exactly 3 calls, 3 finish reasons,
    truncation observed. -/
theorem C8_witness :
    (generate_with_continuation C8_witness_backend 3).2.iterations = 3
    ∧ (generate_with_continuation C8_witness_backend 3).2.finish_reasons.length = 3
    ∧ (generate_with_continuation C8_witness_backend 3).2.was_truncated = decide (2 ≤ 3)
    ∧ (generate_with_continuation C8_witness_backend 3).2.error = none :=
  C8_exact_budget_calls_and_truncation 3 C8_witness_backend (fun _ => "part".toList)
    (fun _ => 5) (by omega)
    (fun i _ h2 => by unfold C8_witness_backend; rw [if_pos h2])
    (by decide)

/-! ## Claim C9 — cleaning an already-clean artifact -/

/-- Splitting never yields an empty list of lines
    (`''.split('\n') == ['']`). -/
theorem pySplitNl_ne_nil (s : List Char) : pySplitNl s ≠ [] := by
  cases s with
  | nil => simp [pySplitNl]
  | cons c rest =>
    rw [pySplitNl]
    by_cases h : c = '\n'
    · rw [if_pos h]; simp
    · rw [if_neg h]
      cases hsplit : pySplitNl rest with
      | nil => simp
      | cons a b => simp

/-- `'\n'.join` is a left inverse of `split('\n')`. -/
theorem pyJoinNl_pySplitNl (s : List Char) : pyJoinNl (pySplitNl s) = s := by
  induction s with
  | nil => rfl
  | cons c rest ih =>
    rw [pySplitNl]
    by_cases h : c = '\n'
    · rw [if_pos h]
      cases hsplit : pySplitNl rest with
      | nil => exact absurd hsplit (pySplitNl_ne_nil rest)
      | cons a b =>
        rw [hsplit] at ih
        show [] ++ '\n' :: pyJoinNl (a :: b) = c :: rest
        rw [ih, List.nil_append, h]
    · rw [if_neg h]
      cases hsplit : pySplitNl rest with
      | nil => exact absurd hsplit (pySplitNl_ne_nil rest)
      | cons a b =>
        rw [hsplit] at ih
        show pyJoinNl ((c :: a) :: b) = c :: rest
        cases b with
        | nil =>
          have ha : a = rest := ih
          show c :: a = c :: rest
          exact congrArg (List.cons c) ha
        | cons a2 b2 =>
          show c :: (a ++ '\n' :: pyJoinNl (a2 :: b2)) = c :: rest
          exact congrArg (List.cons c) ih

/-- `startswith` is transitive along prefixes: if `s` starts with `p` and
    `p` starts with `q`, then `s` starts with `q`. -/
theorem pyStartswith_trans {s p q : List Char} (hsp : pyStartswith s p = true)
    (hpq : pyStartswith p q = true) : pyStartswith s q = true := by
  induction q generalizing s p with
  | nil => cases s <;> rfl
  | cons c qs ih =>
    cases p with
    | nil => simp [pyStartswith] at hpq
    | cons a ps =>
      cases s with
      | nil => simp [pyStartswith] at hsp
      | cons b ss =>
        rw [pyStartswith] at hsp hpq ⊢
        simp only [Bool.and_eq_true, decide_eq_true_eq] at hsp hpq ⊢
        exact ⟨hsp.1.trans hpq.1, ih hsp.2 hpq.2⟩

/-- With no fence line and no `'package '` line present, the start-of-code
    scan finds nothing. -/
theorem findStartAux_none (lines : List (List Char)) :
    ∀ i, (∀ l ∈ lines, pyStartswith (pyStrip l) ("```".toList) = false) →
    (∀ l ∈ lines, pyStartswith (pyStrip l) ("package ".toList) = false) →
    findStartAux lines i = none := by
  induction lines with
  | nil => intro i _ _; rfl
  | cons l rest ih =>
    intro i hf hp
    have hfl := hf l (List.mem_cons_self l rest)
    have hpl := hp l (List.mem_cons_self l rest)
    rw [findStartAux]
    rw [if_neg (fun hgo =>
          Bool.false_ne_true (hfl.symm.trans (pyStartswith_trans hgo (by decide)))),
      if_neg (fun hpk => Bool.false_ne_true (hpl.symm.trans hpk))]
    exact ih (i + 1) (fun l' hl' => hf l' (List.mem_cons_of_mem l hl'))
      (fun l' hl' => hp l' (List.mem_cons_of_mem l hl'))

/-- With no fence line present, the backwards end-of-code scan finds
    nothing. -/
theorem lastFenceIdx_none (lines : List (List Char)) :
    ∀ i, (∀ l ∈ lines, pyStartswith (pyStrip l) ("```".toList) = false) →
    lastFenceIdx lines i = none := by
  induction lines with
  | nil => intro i _; rfl
  | cons l rest ih =>
    intro i h
    rw [lastFenceIdx, ih (i + 1) (fun l' hl' => h l' (List.mem_cons_of_mem l hl'))]
    show (if pyStartswith (pyStrip l) ("```".toList) = true then some i else none) = none
    rw [if_neg (fun hx =>
      Bool.false_ne_true ((h l (List.mem_cons_self l rest)).symm.trans hx))]

/-- **C9 as amended.**  `clean_code_artifacts` returns its input unchanged
    when the input is non-empty, already stripped (no leading/trailing
    whitespace), contains no line whose stripped form begins with `` ``` ``,
    and contains a `'package '` line only if the very first line is one.
    (On other fence-free inputs the function *does* change the text: it
    strips surrounding whitespace, and it drops every line before the first
    `'package '` line — see the counterexample.) -/
theorem C9_clean_is_identity_on_clean (response : List Char)
    (hne : response ≠ [])
    (hstr : pyStrip response = response)
    (hnf : ∀ l ∈ pySplitNl response, pyStartswith (pyStrip l) ("```".toList) = false)
    (hpkg : (∃ h t, pySplitNl response = h :: t
              ∧ pyStartswith (pyStrip h) ("package ".toList) = true)
            ∨ ∀ l ∈ pySplitNl response,
                pyStartswith (pyStrip l) ("package ".toList) = false) :
    clean_code_artifacts response = response := by
  have hstart : startIdx (pySplitNl response) = 0 := by
    rcases hpkg with ⟨h, t, heq, hpk⟩ | hall
    · have hfh : pyStartswith (pyStrip h) ("```".toList) = false :=
        hnf h (heq ▸ List.mem_cons_self h t)
      rw [heq]
      unfold startIdx
      rw [findStartAux]
      rw [if_neg (fun hgo =>
            Bool.false_ne_true (hfh.symm.trans (pyStartswith_trans hgo (by decide)))),
        if_pos hpk]
      rfl
    · unfold startIdx
      rw [findStartAux_none (pySplitNl response) 0 hnf hall]
      rfl
  have hend : endIdx (pySplitNl response) 0 = (pySplitNl response).length := by
    unfold endIdx
    rw [List.drop_zero, lastFenceIdx_none (pySplitNl response) 0 hnf]
  have hclean : cleanedLines (pySplitNl response) = pySplitNl response := by
    unfold cleanedLines
    rw [hstart, hend, List.drop_zero, Nat.sub_zero, List.take_length]
    refine List.filter_eq_self.mpr fun l hl => ?_
    have hfl := hnf l hl
    refine decide_eq_true ⟨fun he => ?_, fun he => ?_⟩
    · rw [he] at hfl
      exact Bool.false_ne_true (hfl.symm.trans (by decide))
    · rw [he] at hfl
      exact Bool.false_ne_true (hfl.symm.trans (by decide))
  unfold clean_code_artifacts
  rw [if_neg (fun hor => hor.elim hne (fun hs => hne (hstr ▸ hs))),
    hclean, pyJoinNl_pySplitNl, hstr, if_neg hne]

/-- **C9 counterexample.**  The claim says every fence-free artifact is
    returned unchanged.  The fence-free input `" x"` is returned as `"x"`:
    the final `.strip()` removes the leading blank, so the result differs
    from the input. -/
theorem C9_counterexample :
    clean_code_artifacts (" x".toList) = ("x".toList)
    ∧ clean_code_artifacts (" x".toList) ≠ (" x".toList) :=
  ⟨by decide, by decide⟩

/-- Witness for C9 on a concrete clean artifact. -/
theorem C9_witness : clean_code_artifacts ("package main".toList) = ("package main".toList) :=
  C9_clean_is_identity_on_clean ("package main".toList) (by decide) (by decide) (by decide)
    (Or.inl ⟨("package main".toList), [], by decide, by decide⟩)

end CloudNativeAI
